import Mathlib

set_option maxRecDepth 8000

/-! Shallow embedding of src/bot.py (Telegram subscription bot).

Timestamps (datetime.utcnow values and the TEXT isoformat columns derived
from them) are modelled as integers on an absolute second timeline:
isoformat strings of naive UTC datetimes compare lexicographically exactly
as the instants compare, so the SQL string comparison in
has_active_subscription_by_telegram, the Python datetime comparison in
check_subscriptions and the SQLite datetime() comparison in the recovery
query all become integer comparison.  SQLite date() extraction is modelled
as flooring division by 86400 (one calendar day = one 86400-second block),
and timedelta(days=d) / timedelta(hours=24) become d * 86400 / 86400.
The created_at/updated_at columns are omitted: no operation reads them.
Python int() parsing of payload fields is passed in as an explicit
function argument pi : String -> Option Int (ValueError = none), so the
theorems hold for any parsing behaviour. -/

structure UserRow where
  id : Nat
  telegram_id : Int
  username : String
  first_name : String
  last_name : String
  trial_used : Bool
  deriving DecidableEq

structure SubRow where
  id : Nat
  user_id : Nat
  expires_at : Int
  status : String
  deriving DecidableEq

structure PaymentRow where
  id : Nat
  telegram_payment_charge_id : String
  user_id : Int
  amount : Int
  months : Int
  status : String
  deriving DecidableEq

/-- The SQLite database bot.db: tables users, subscriptions, payments,
plus the AUTOINCREMENT counters. -/
structure DB where
  users : List UserRow
  subs : List SubRow
  payments : List PaymentRow
  nextUserId : Nat
  nextSubId : Nat
  nextPayId : Nat
  deriving DecidableEq

/-- SQLite date(): the calendar day of an instant, as flooring division
by 86400 seconds. -/
def dateOf (t : Int) : Int := Int.ediv t 86400

/-- bot.py create_or_get_user: INSERT OR IGNORE keyed on the UNIQUE
telegram_id column; returns whether a row was inserted. -/
def create_or_get_user (db : DB) (telegram_id : Int)
    (username first_name last_name : String) : DB × Bool :=
  if db.users.any (fun u => u.telegram_id == telegram_id) then (db, false)
  else
    ({ db with
        users := db.users ++
          [⟨db.nextUserId, telegram_id, username, first_name, last_name, false⟩],
        nextUserId := db.nextUserId + 1 }, true)

/-- bot.py set_trial_used: UPDATE users SET trial_used = 1 WHERE id = ?. -/
def set_trial_used (db : DB) (user_id : Nat) : DB :=
  { db with
      users := db.users.map
        (fun u => if u.id == user_id then { u with trial_used := true } else u) }

/-- bot.py add_subscription: INSERT a subscription row with
expires_at = utcnow + timedelta(days = days); status defaults to active. -/
def add_subscription (db : DB) (now : Int) (user_id : Nat) (days : Int) : DB :=
  { db with
      subs := db.subs ++ [⟨db.nextSubId, user_id, now + days * 86400, "active"⟩],
      nextSubId := db.nextSubId + 1 }

/-- bot.py get_user_by_telegram: SELECT ... FROM users WHERE telegram_id = ?
(first row). -/
def get_user_by_telegram (db : DB) (telegram_id : Int) : Option UserRow :=
  db.users.find? (fun u => u.telegram_id == telegram_id)

/-- bot.py get_active_subscribers: SELECT u.telegram_id, ..., s.expires_at
FROM subscriptions s JOIN users u ON s.user_id = u.id
WHERE s.status = 'active'.  Only the (telegram_id, expires_at) columns the
sweep reads are kept. -/
def get_active_subscribers (db : DB) : List (Int × Int) :=
  db.subs.flatMap (fun s =>
    if s.status == "active" then
      db.users.filterMap (fun u =>
        if u.id == s.user_id then some (u.telegram_id, s.expires_at) else none)
    else [])

/-- bot.py has_active_subscription_by_telegram: EXISTS a subscription row
joined to the user with expires_at > now and status = 'active'. -/
def has_active_subscription_by_telegram (db : DB) (now : Int)
    (telegram_id : Int) : Bool :=
  db.subs.any (fun s =>
    db.users.any (fun u => u.id == s.user_id && u.telegram_id == telegram_id) &&
    decide (now < s.expires_at) && s.status == "active")

/-- bot.py activate_subscription: look the user up by telegram id and, only
if present, append a subscription row; silently does nothing otherwise. -/
def activate_subscription (db : DB) (now : Int) (telegram_id : Int)
    (days : Int) : DB :=
  match get_user_by_telegram db telegram_id with
  | none => db
  | some u => add_subscription db now u.id days

/-- Outbound Telegram effects of the message handlers. -/
inductive BotEffect where
  | sendInviteButton (telegram_id : Int) (text : String)
  | answerAlert (text : String)
  deriving DecidableEq

/-- bot.py trial_handler: reject unknown users, reject when trial_used,
otherwise set the flag, append a TRIAL_DAYS subscription row and send one
invite button. -/
def trial_handler (db : DB) (now : Int) (trialDays : Int)
    (telegram_id : Int) : DB × List BotEffect :=
  match get_user_by_telegram db telegram_id with
  | none => (db, [.answerAlert "Ошибка. Попробуйте /start"])
  | some u =>
    if u.trial_used then
      (db, [.answerAlert "Вы уже использовали пробный период."])
    else
      let db1 := set_trial_used db u.id
      let db2 := add_subscription db1 now u.id trialDays
      (db2, [.sendInviteButton telegram_id
        ("✅ Пробный период на " ++ toString trialDays ++ " дня(ей) активирован!")])

/-- Python str.split("_"): split on every underscore, keeping empty
segments ("".split gives one empty segment). -/
def pySplit (s : String) : List String :=
  (s.toList.splitOn '_').map (fun cs => String.mk cs)

def pyIntDigits : List Char → Nat → Option Nat
  | [], acc => some acc
  | c :: rest, acc =>
    if 48 ≤ c.toNat && c.toNat ≤ 57 then
      pyIntDigits rest (acc * 10 + (c.toNat - 48))
    else none

/-- Python int() on the decimal strings that occur here: optional minus
sign followed by at least one digit; anything else raises ValueError
(none).  Used as the concrete parse function in witnesses; the theorems
about the payment handler quantify over the parse function. -/
def pyInt (s : String) : Option Int :=
  match s.toList with
  | [] => none
  | '-' :: [] => none
  | '-' :: c :: rest => (pyIntDigits (c :: rest) 0).map (fun n => -(n : Int))
  | cs => (pyIntDigits cs 0).map (fun n => (n : Int))

inductive PayError where
  | badPayload
  | integrityError
  deriving DecidableEq

structure HandlerResult where
  db : DB
  effects : List BotEffect
  err : Option PayError
  deriving DecidableEq

/-- bot.py successful_payment_handler.  The invoice payload is split on
the underscore; fewer than 4 parts or an int() failure on parts 1 or 2
(modelled by the parse argument pi returning none) aborts before any
write.  The INSERT into payments hits the UNIQUE constraint on
telegram_payment_charge_id when the charge id already exists: aiosqlite
raises IntegrityError, which the handler does not catch, so the handler
aborts there with no write and no message. -/
def successful_payment_handler (pi : String → Option Int) (db : DB)
    (now : Int) (invoice_payload : String) (total_amount : Int)
    (charge_id : String) : HandlerResult :=
  let parts := pySplit invoice_payload
  if parts.length < 4 then ⟨db, [], some .badPayload⟩
  else
    match pi (parts.getD 1 ""), pi (parts.getD 2 "") with
    | some user_id, some months =>
      if db.payments.any
          (fun p => p.telegram_payment_charge_id == charge_id) then
        ⟨db, [], some .integrityError⟩
      else
        let db1 := { db with
          payments := db.payments ++
            [⟨db.nextPayId, charge_id, user_id, total_amount / 100, months, "paid"⟩],
          nextPayId := db.nextPayId + 1 }
        let db2 := activate_subscription db1 now user_id (months * 30)
        ⟨db2, [.sendInviteButton user_id
          "✅ Оплата прошла успешно! Доступ активирован."], none⟩
    | _, _ => ⟨db, [], some .badPayload⟩

/-- bot.py admin_extend_days (database part): look the user up by the id
the admin typed and, if present, append a subscription row. -/
def admin_extend_days (db : DB) (now : Int) (telegram_id : Int)
    (days : Int) : DB :=
  match get_user_by_telegram db telegram_id with
  | none => db
  | some u => add_subscription db now u.id days

/-- External Telegram environment of get_invite_link: whether
create_chat_invite_link succeeds and, when it does, the link it returns. -/
structure TgEnv where
  createInviteOk : Bool
  freshLink : String
  deriving DecidableEq

/-- Telegram API calls made by the access-grant path. addChatMember is
the direct membership addition the spec describes; it is part of the
action vocabulary so that its absence from every trace is statable. -/
inductive InviteAction where
  | createChatInviteLink (member_limit : Nat) (expire_date : Int)
  | addChatMember (telegram_id : Int)
  | sendMessageWithButton (telegram_id : Int) (url : String) (text : String)
  deriving DecidableEq

def supportUrl : String := "https://web.telegram.org/k/#5411737851"

/-- bot.py get_invite_link: always calls create_chat_invite_link with
member_limit 1 and expire_date = utcnow + 24h; on failure it returns the
hardcoded support url instead. -/
def get_invite_link (env : TgEnv) (now : Int) : String × List InviteAction :=
  if env.createInviteOk then
    (env.freshLink, [.createChatInviteLink 1 (now + 86400)])
  else
    (supportUrl, [.createChatInviteLink 1 (now + 86400)])

/-- bot.py send_invite_button: fetch a link via get_invite_link and send
one message carrying it as an inline button. -/
def send_invite_button (env : TgEnv) (now : Int) (user_id : Int)
    (text : String) : List InviteAction :=
  let r := get_invite_link env now
  r.2 ++ [.sendMessageWithButton user_id r.1 text]

/-- bot.py check_subscriptions, inside the expiry loop:
UPDATE subscriptions SET status = 'expired'
WHERE user_id = (SELECT id FROM users WHERE telegram_id = ?).
The WHERE clause is keyed on the user, so it touches every subscription
row of that user; when the subquery finds no user it matches nothing. -/
def markUserExpired (db : DB) (telegram_id : Int) : DB :=
  match db.users.find? (fun u => u.telegram_id == telegram_id) with
  | none => db
  | some u =>
      { db with
          subs := db.subs.map (fun s =>
            if s.user_id == u.id then { s with status := "expired" } else s) }

structure Step1Acc where
  db : DB
  revokes : List Int
  msgs : List Int
  deriving DecidableEq

/-- One iteration of the expiry loop of check_subscriptions: if the
snapshot row is past expiry, run the UPDATE, re-query
has_active_subscription_by_telegram and either skip (continue) or revoke
(remove_from_channel) and notify. -/
def step1Body (now : Int) (acc : Step1Acc) (row : Int × Int) : Step1Acc :=
  if row.2 < now then
    let db1 := markUserExpired acc.db row.1
    if has_active_subscription_by_telegram db1 now row.1 then
      { acc with db := db1 }
    else
      ⟨db1, acc.revokes ++ [row.1], acc.msgs ++ [row.1]⟩
  else acc

/-- The NOT EXISTS subquery of the recovery pass: an active row of the
user with datetime(expires_at) >= datetime(now). -/
def hasActiveGE (db : DB) (now : Int) (telegram_id : Int) : Bool :=
  db.subs.any (fun s =>
    db.users.any (fun u => u.id == s.user_id && u.telegram_id == telegram_id) &&
    decide (now ≤ s.expires_at) && s.status == "active")

/-- SELECT DISTINCT, keeping first occurrences. -/
def dedupInts (l : List Int) : List Int :=
  l.foldl (fun acc x => if acc.contains x then acc else acc ++ [x]) []

/-- The recovery-pass query of check_subscriptions: DISTINCT telegram ids
of users owning an expired row and no active row with expires_at >= now. -/
def expired_without_active (db : DB) (now : Int) : List Int :=
  dedupInts (db.subs.flatMap (fun s =>
    if s.status == "expired" then
      db.users.filterMap (fun u =>
        if u.id == s.user_id && !(hasActiveGE db now u.telegram_id) then
          some u.telegram_id
        else none)
    else []))

/-- The recovery loop re-checks has_active_subscription_by_telegram before
revoking and notifying each listed user. -/
def recoveryList (db : DB) (now : Int) : List Int :=
  (expired_without_active db now).filter
    (fun tg => !(has_active_subscription_by_telegram db now tg))

/-- The reminder query of check_subscriptions: one row per subscription
with status 'active' and date(expires_at) = date(now + 1 day), joined to
its user. -/
def reminderRows (db : DB) (now : Int) : List Int :=
  db.subs.flatMap (fun s =>
    if s.status == "active" && (dateOf s.expires_at == dateOf (now + 86400)) then
      db.users.filterMap (fun u =>
        if u.id == s.user_id then some u.telegram_id else none)
    else [])

/-- Result of one sweep: the database it leaves behind, the
remove_from_channel calls and messages of the expiry loop, the
remove_from_channel calls and messages of the recovery pass, and the
reminder messages. -/
structure SweepResult where
  db : DB
  expiredRevokes : List Int
  expiredMsgs : List Int
  recoveryRevokes : List Int
  recoveryMsgs : List Int
  reminders : List Int
  deriving DecidableEq

/-- bot.py check_subscriptions: the whole sweep, modelled at one instant
now (the code re-reads the clock inside helper calls within the same
sweep; nothing in a single sweep depends on that sub-second drift). -/
def check_subscriptions (db : DB) (now : Int) : SweepResult :=
  let acc := (get_active_subscribers db).foldl (step1Body now) ⟨db, [], []⟩
  { db := acc.db
    expiredRevokes := acc.revokes
    expiredMsgs := acc.msgs
    recoveryRevokes := recoveryList acc.db now
    recoveryMsgs := recoveryList acc.db now
    reminders := reminderRows acc.db now }

/-- bot.py main: scheduler.add_job(check_subscriptions, CronTrigger 9:00). -/
def daily_job : DB → Int → SweepResult := check_subscriptions

/-- bot.py main: scheduler.add_job(check_subscriptions, IntervalTrigger 6h)
— the safety-net interval cadence runs the very same job. -/
def interval_job : DB → Int → SweepResult := check_subscriptions

/-- The ledger-mutating inbound operations of the bot. -/
inductive Event where
  | startEvt (telegram_id : Int) (username first_name last_name : String)
  | trialEvt (telegram_id : Int)
  | payEvt (invoice_payload : String) (total_amount : Int) (charge_id : String)
  | adminExtendEvt (telegram_id : Int) (days : Int)
  | sweepEvt
  deriving DecidableEq

/-- The database component of each operation. -/
def applyEvent (pi : String → Option Int) (trialDays : Int) (now : Int)
    (db : DB) (e : Event) : DB :=
  match e with
  | .startEvt tg un fn ln => (create_or_get_user db tg un fn ln).1
  | .trialEvt tg => (trial_handler db now trialDays tg).1
  | .payEvt pl ta cid => (successful_payment_handler pi db now pl ta cid).db
  | .adminExtendEvt tg days => admin_extend_days db now tg days
  | .sweepEvt => (check_subscriptions db now).db

/-- Every subscription row's status is one of the two values the schema
ever stores ('active' from the INSERT default, 'expired' from the sweep). -/
def statusDom (db : DB) : Prop :=
  ∀ s ∈ db.subs, s.status = "active" ∨ s.status = "expired"

/-- The schema constraints that hold of every reachable database: users.id
is a primary key, users.telegram_id is UNIQUE, and statuses are in
domain. -/
def WF (db : DB) : Prop :=
  (db.users.map (fun u => u.id)).Nodup ∧
  (db.users.map (fun u => u.telegram_id)).Nodup ∧
  statusDom db

/-- How one ledger operation may change one pre-existing subscription row:
identity, owner and expiry are untouched and the status either stays or
moves active → expired. -/
def subStepMono (s sNew : SubRow) : Prop :=
  sNew.id = s.id ∧ sNew.user_id = s.user_id ∧ sNew.expires_at = s.expires_at ∧
  (sNew.status = s.status ∨ (s.status = "active" ∧ sNew.status = "expired"))

/-- Every subscription row of the user with this users.id is expired. -/
def UserExpired (db : DB) (uid : Nat) : Prop :=
  ∀ s ∈ db.subs, s.user_id = uid → s.status = "expired"

/-! Concrete database states used as witnesses and counterexamples. -/

/-- One user (telegram id 100) holding an expired row A (id 1, expires 50)
and a valid renewal row B (id 2, expires 200), swept at instant 100: the
renewal-race scenario of the spec. -/
def dbRace : DB :=
  ⟨[⟨1, 100, "u", "A", "B", false⟩],
   [⟨1, 1, 50, "active"⟩, ⟨2, 1, 200, "active"⟩], [], 2, 3, 1⟩

/-- One user (telegram id 7) with an active row expiring on the calendar
day after instant 100. -/
def dbRem : DB := ⟨[⟨1, 7, "", "", "", false⟩], [⟨1, 1, 86450, "active"⟩], [], 2, 2, 1⟩

def dbEmpty : DB := ⟨[], [], [], 1, 1, 1⟩

/-- One user (telegram id 42) who has not used the trial. -/
def dbTrial : DB := ⟨[⟨1, 42, "", "", "", false⟩], [], [], 2, 1, 1⟩

/-- Recognizer for the direct membership addition the spec's grant
protocol describes. -/
def isDirectAdd : InviteAction → Bool
  | .addChatMember _ => true
  | _ => false

/-- C1: the spec says that when the sweep's re-verification finds a newer
valid row, the revoke is skipped and the user keeps access.  In the code
the expiry UPDATE is keyed on the user, so it expires the renewal row too:
at sweep time 100 user 100 holds the valid renewal row B (active, expires
200 > 100) — has_active_subscription_by_telegram is true before the sweep
— yet the sweep's expiry loop revokes (remove_from_channel) and notifies
that very user. -/
theorem C1_renewal_race_revoked_despite_renewal :
    has_active_subscription_by_telegram dbRace 100 100 = true ∧
    (check_subscriptions dbRace 100).expiredRevokes = [100] ∧
    (check_subscriptions dbRace 100).expiredMsgs = [100] := by decide

/-- C2: the spec says expiry marking transitions exactly the one processed
row and every other row keeps its status.  Row id 2 of dbRace is a
different subscription of the same user, active and unexpired (expires
200 > sweep time 100), yet after the sweep processes the expired row id 1
the row id 2 has also been flipped to expired. -/
theorem C2_mark_expired_clobbers_sibling_row :
    dbRace.subs.find? (fun s => s.id == 2) = some ⟨2, 1, 200, "active"⟩ ∧
    (check_subscriptions dbRace 100).db.subs.find? (fun s => s.id == 2) =
      some ⟨2, 1, 200, "expired"⟩ := by decide

/-- C3 counterexample: running the sweep a second time with no intervening
events re-runs the recovery pass in full — user 100 is revoked and
notified again by the second run, so the second run does perform
additional real revokes/notifications beyond those of the first run. -/
theorem C3_second_sweep_repeats_notifications :
    (check_subscriptions (check_subscriptions dbRace 100).db 100).recoveryMsgs
      = [100] ∧
    (check_subscriptions (check_subscriptions dbRace 100).db 100).recoveryRevokes
      = [100] := by decide

/-- C6 counterexample: a concrete grant call whose first action is the
invite-link creation, and whose trace contains no direct membership
addition at all — refuting the claim that every grant call first attempts
direct membership addition and only falls back on its failure. -/
theorem C6_no_direct_add_attempted :
    (send_invite_button ⟨true, "https://t.me/+abc"⟩ 0 5 "ok").head? =
      some (.createChatInviteLink 1 86400) ∧
    (send_invite_button ⟨true, "https://t.me/+abc"⟩ 0 5 "ok").all
      (fun a => !(isDirectAdd a)) = true := by decide

/-- C6 amended: every grant call creates a single-use (member_limit 1),
24-hour time-boxed invite link and delivers it in one message; when link
creation fails it sends the hardcoded support url instead.  No direct
membership addition is ever attempted: the trace is exactly these two
actions. -/
theorem C6_grant_always_invite_amended (env : TgEnv) (now : Int)
    (user_id : Int) (text : String) :
    send_invite_button env now user_id text =
      [.createChatInviteLink 1 (now + 86400),
       .sendMessageWithButton user_id
         (if env.createInviteOk then env.freshLink else supportUrl) text] := by
  rcases env with ⟨ok, link⟩
  cases ok <;> rfl

/-- C7 counterexample: the interval-cadence job (the 6-hour safety net of
main) sends a renewal reminder — refuting the claim that only the
daily-cadence sweep sends reminders.  Both scheduler jobs run the same
check_subscriptions function. -/
theorem C7_interval_sweep_sends_reminders :
    (interval_job dbRem 100).reminders = [7] ∧
    (interval_job dbRem 100).reminders ≠ [] := by decide

/-! Helper lemmas about the payment handler. -/

theorem activate_subscription_payments (db : DB) (now : Int)
    (telegram_id : Int) (days : Int) :
    (activate_subscription db now telegram_id days).payments = db.payments := by
  unfold activate_subscription
  cases get_user_by_telegram db telegram_id <;> rfl

theorem activate_subscription_users (db : DB) (now : Int)
    (telegram_id : Int) (days : Int) :
    (activate_subscription db now telegram_id days).users = db.users := by
  unfold activate_subscription
  cases get_user_by_telegram db telegram_id <;> rfl

/-- C9: a payment event whose payload has fewer than 4 underscore-separated
parts, or whose user-id or period part fails integer parsing, is rejected
before any ledger write: the database is returned untouched, no message is
sent and no grant happens. -/
theorem C9_malformed_payment_rejected (pi : String → Option Int) (db : DB)
    (now : Int) (invoice_payload : String) (total_amount : Int)
    (charge_id : String)
    (h : ((pySplit invoice_payload).length < 4) ∨
         pi ((pySplit invoice_payload).getD 1 "") = none ∨
         pi ((pySplit invoice_payload).getD 2 "") = none) :
    successful_payment_handler pi db now invoice_payload total_amount charge_id
      = ⟨db, [], some PayError.badPayload⟩ := by
  unfold successful_payment_handler
  by_cases hl : (pySplit invoice_payload).length < 4
  · rw [if_pos hl]
  · rw [if_neg hl]
    rcases h with h | h | h
    · exact absurd h hl
    · rw [h]
    · cases hp : pi ((pySplit invoice_payload).getD 1 "") with
      | none => rfl
      | some v => rw [h]

/-- C9 witness: the payload "bad" splits into one part and is rejected with
no state change. -/
theorem C9_malformed_payment_rejected_witness :
    successful_payment_handler pyInt dbEmpty 0 "bad" 100 "ch"
      = ⟨dbEmpty, [], some PayError.badPayload⟩ :=
  C9_malformed_payment_rejected pyInt dbEmpty 0 "bad" 100 "ch"
    (Or.inl (by decide))

/-- A successfully processed payment leaves its charge id present in the
payments table. -/
theorem pay_success_has_charge (pi : String → Option Int) (db : DB)
    (now : Int) (invoice_payload : String) (total_amount : Int)
    (charge_id : String)
    (h : (successful_payment_handler pi db now invoice_payload total_amount
            charge_id).err = none) :
    (successful_payment_handler pi db now invoice_payload total_amount
        charge_id).db.payments.any
      (fun p => p.telegram_payment_charge_id == charge_id) = true := by
  unfold successful_payment_handler at h ⊢
  by_cases hl : (pySplit invoice_payload).length < 4
  · rw [if_pos hl] at h
    simp at h
  · rw [if_neg hl] at h ⊢
    cases hp : pi ((pySplit invoice_payload).getD 1 "") with
    | none => rw [hp] at h; simp at h
    | some user_id =>
      cases hq : pi ((pySplit invoice_payload).getD 2 "") with
      | none => rw [hp, hq] at h; simp at h
      | some months =>
        rw [hp, hq] at h
        dsimp only at h ⊢
        by_cases hd : (db.payments.any
            (fun p => p.telegram_payment_charge_id == charge_id)) = true
        · rw [if_pos hd] at h; simp at h
        · rw [if_neg hd]
          rw [activate_subscription_payments]
          simp

/-- Processing a payment event whose charge id is already present in the
payments table aborts on the UNIQUE-constraint violation: no write, no
message, an error. -/
theorem pay_duplicate_rejected (pi : String → Option Int) (db : DB)
    (now : Int) (invoice_payload : String) (total_amount : Int)
    (charge_id : String)
    (h : db.payments.any
        (fun p => p.telegram_payment_charge_id == charge_id) = true) :
    (successful_payment_handler pi db now invoice_payload total_amount
        charge_id).db = db ∧
    (successful_payment_handler pi db now invoice_payload total_amount
        charge_id).effects = [] ∧
    (successful_payment_handler pi db now invoice_payload total_amount
        charge_id).err ≠ none := by
  unfold successful_payment_handler
  by_cases hl : (pySplit invoice_payload).length < 4
  · rw [if_pos hl]
    exact ⟨rfl, rfl, by simp⟩
  · rw [if_neg hl]
    cases hp : pi ((pySplit invoice_payload).getD 1 "") with
    | none => exact ⟨rfl, rfl, by simp⟩
    | some user_id =>
      cases hq : pi ((pySplit invoice_payload).getD 2 "") with
      | none => exact ⟨rfl, rfl, by simp⟩
      | some months =>
        dsimp only
        rw [if_pos h]
        exact ⟨rfl, rfl, by simp⟩

/-- C4: payment idempotency.  If a payment event was processed
successfully, then re-delivering any event carrying the same charge id
(the idempotency key) against the resulting database is rejected by the
uniqueness constraint on telegram_payment_charge_id: it produces no second
payment row, no subscription extension and no message — the database is
returned unchanged. -/
theorem C4_payment_idempotency (pi : String → Option Int) (db : DB)
    (now1 now2 : Int) (payload1 payload2 : String) (amount1 amount2 : Int)
    (charge_id : String)
    (h : (successful_payment_handler pi db now1 payload1 amount1
            charge_id).err = none) :
    (successful_payment_handler pi
        (successful_payment_handler pi db now1 payload1 amount1 charge_id).db
        now2 payload2 amount2 charge_id).db
      = (successful_payment_handler pi db now1 payload1 amount1 charge_id).db ∧
    (successful_payment_handler pi
        (successful_payment_handler pi db now1 payload1 amount1 charge_id).db
        now2 payload2 amount2 charge_id).effects = [] ∧
    (successful_payment_handler pi
        (successful_payment_handler pi db now1 payload1 amount1 charge_id).db
        now2 payload2 amount2 charge_id).err ≠ none :=
  pay_duplicate_rejected pi _ now2 payload2 amount2 charge_id
    (pay_success_has_charge pi db now1 payload1 amount1 charge_id h)

/-- C4 witness: a concrete payment processed once, then re-delivered with
the same charge id; the duplicate changes nothing. -/
theorem C4_payment_idempotency_witness :
    (successful_payment_handler pyInt
        (successful_payment_handler pyInt dbEmpty 0
          "sub_5_2_pay_yookassa" 29900 "ch1").db
        0 "sub_5_2_pay_yookassa" 29900 "ch1").db
      = (successful_payment_handler pyInt dbEmpty 0
          "sub_5_2_pay_yookassa" 29900 "ch1").db ∧
    (successful_payment_handler pyInt
        (successful_payment_handler pyInt dbEmpty 0
          "sub_5_2_pay_yookassa" 29900 "ch1").db
        0 "sub_5_2_pay_yookassa" 29900 "ch1").effects = [] ∧
    (successful_payment_handler pyInt
        (successful_payment_handler pyInt dbEmpty 0
          "sub_5_2_pay_yookassa" 29900 "ch1").db
        0 "sub_5_2_pay_yookassa" 29900 "ch1").err ≠ none :=
  C4_payment_idempotency pyInt dbEmpty 0 0 "sub_5_2_pay_yookassa"
    "sub_5_2_pay_yookassa" 29900 29900 "ch1" (by decide)

/-- C10: a well-formed payment event whose parsed user id matches no user
row is still recorded as a payment row and still answered with the success
message and invite, but silently appends no subscription row and raises no
error: payment state and subscription state diverge with no failure
signal. -/
theorem C10_unknown_user_payment_divergence (pi : String → Option Int)
    (db : DB) (now : Int) (invoice_payload : String) (total_amount : Int)
    (charge_id : String) (user_id months : Int)
    (h4 : ¬ (pySplit invoice_payload).length < 4)
    (hu : pi ((pySplit invoice_payload).getD 1 "") = some user_id)
    (hm : pi ((pySplit invoice_payload).getD 2 "") = some months)
    (hdup : db.payments.any
        (fun p => p.telegram_payment_charge_id == charge_id) = false)
    (huser : get_user_by_telegram db user_id = none) :
    successful_payment_handler pi db now invoice_payload total_amount
        charge_id
      = ⟨{ db with
            payments := db.payments ++
              [⟨db.nextPayId, charge_id, user_id, total_amount / 100, months,
                "paid"⟩],
            nextPayId := db.nextPayId + 1 },
         [.sendInviteButton user_id
            "✅ Оплата прошла успешно! Доступ активирован."], none⟩ := by
  unfold successful_payment_handler
  rw [if_neg h4, hu, hm]
  dsimp only
  rw [if_neg (by simp [hdup])]
  unfold activate_subscription
  have hrw : get_user_by_telegram
      { db with
          payments := db.payments ++
            [⟨db.nextPayId, charge_id, user_id, total_amount / 100, months,
              "paid"⟩],
          nextPayId := db.nextPayId + 1 } user_id
      = get_user_by_telegram db user_id := rfl
  rw [hrw, huser]

/-- C10 witness: payment for telegram id 5 against a database with no user
rows: the payment row is inserted, the invite is sent, no subscription row
appears and no error is raised. -/
theorem C10_unknown_user_payment_divergence_witness :
    successful_payment_handler pyInt dbEmpty 0 "sub_5_2_pay_yookassa"
        29900 "ch1"
      = ⟨{ dbEmpty with
            payments := [⟨1, "ch1", 5, 299, 2, "paid"⟩], nextPayId := 2 },
         [.sendInviteButton 5
            "✅ Оплата прошла успешно! Доступ активирован."], none⟩ :=
  C10_unknown_user_payment_divergence pyInt dbEmpty 0 "sub_5_2_pay_yookassa"
    29900 "ch1" 5 2 (by decide) (by decide) (by decide) (by decide)
    (by decide)

/-! Helper lemmas about user lookup. -/

/-- find? commutes with a map that does not change the tested field. -/
theorem find_map_pres (l : List UserRow) (p : UserRow → Bool)
    (f : UserRow → UserRow) (u : UserRow) (hf : ∀ x, p (f x) = p x)
    (h : l.find? p = some u) : (l.map f).find? p = some (f u) := by
  induction l with
  | nil => exact absurd h (by simp)
  | cons a t ih =>
    simp only [List.map_cons]
    by_cases hp : p a = true
    · rw [List.find?_cons_of_pos _ hp] at h
      rw [List.find?_cons_of_pos _ (by rw [hf]; exact hp)]
      injection h with h
      rw [h]
    · rw [List.find?_cons_of_neg _ hp] at h
      rw [List.find?_cons_of_neg _ (by rw [hf]; exact hp)]
      exact ih h

/-- Looking a user up after set_trial_used returns the same row, with the
flag forced when the ids match. -/
theorem set_trial_used_lookup (db : DB) (uid : Nat) (tg : Int) (u : UserRow)
    (hu : get_user_by_telegram db tg = some u) :
    get_user_by_telegram (set_trial_used db uid) tg
      = some (if u.id == uid then { u with trial_used := true } else u) := by
  unfold get_user_by_telegram set_trial_used at *
  exact find_map_pres db.users _ _ u
    (fun x => by
      by_cases hx : (x.id == uid) = true
      · rw [if_pos hx]
      · rw [if_neg hx]) hu

/-- C5: trial exactly-once.  A trial request from a user whose trial_used
flag is false appends exactly one subscription row of the configured trial
length and sends exactly one invite (the single grant); afterwards the
user's row carries trial_used = true, and any trial request from a user
whose flag is set — in particular every subsequent request by this user —
is rejected with an alert, changes nothing and sends no invite. -/
theorem C5_trial_exactly_once (db : DB) (now now2 : Int) (trialDays : Int)
    (telegram_id : Int) (u : UserRow)
    (hu : get_user_by_telegram db telegram_id = some u)
    (ht : u.trial_used = false) :
    (trial_handler db now trialDays telegram_id).1.subs
      = db.subs ++ [⟨db.nextSubId, u.id, now + trialDays * 86400, "active"⟩] ∧
    (trial_handler db now trialDays telegram_id).2
      = [.sendInviteButton telegram_id
          ("✅ Пробный период на " ++ toString trialDays ++ " дня(ей) активирован!")] ∧
    get_user_by_telegram (trial_handler db now trialDays telegram_id).1
        telegram_id
      = some { u with trial_used := true } ∧
    (∀ db' u', get_user_by_telegram db' telegram_id = some u' →
       u'.trial_used = true →
       trial_handler db' now2 trialDays telegram_id
         = (db', [.answerAlert "Вы уже использовали пробный период."])) ∧
    trial_handler (trial_handler db now trialDays telegram_id).1 now2
        trialDays telegram_id
      = ((trial_handler db now trialDays telegram_id).1,
         [.answerAlert "Вы уже использовали пробный период."]) := by
  have hstep : trial_handler db now trialDays telegram_id
      = (add_subscription (set_trial_used db u.id) now u.id trialDays,
         [.sendInviteButton telegram_id
           ("✅ Пробный период на " ++ toString trialDays ++ " дня(ей) активирован!")]) := by
    unfold trial_handler
    rw [hu]
    dsimp only
    rw [ht]
    simp
  have h3 : get_user_by_telegram (trial_handler db now trialDays
      telegram_id).1 telegram_id = some { u with trial_used := true } := by
    rw [hstep]
    have heq : get_user_by_telegram
        (add_subscription (set_trial_used db u.id) now u.id trialDays)
        telegram_id = get_user_by_telegram (set_trial_used db u.id)
        telegram_id := rfl
    rw [heq, set_trial_used_lookup db u.id telegram_id u hu]
    simp
  have h4 : ∀ db' u', get_user_by_telegram db' telegram_id = some u' →
      u'.trial_used = true →
      trial_handler db' now2 trialDays telegram_id
        = (db', [.answerAlert "Вы уже использовали пробный период."]) := by
    intro db' u' h' ht'
    unfold trial_handler
    rw [h']
    dsimp only
    rw [ht']
    simp
  refine ⟨by rw [hstep]; exact rfl, by rw [hstep], h3, h4, ?_⟩
  exact h4 _ _ h3 rfl

/-- C5 witness: the concrete first and second trial request of user 42. -/
theorem C5_trial_exactly_once_witness :
    (trial_handler dbTrial 0 2 42).1.subs
      = dbTrial.subs ++ [⟨1, 1, 0 + 2 * 86400, "active"⟩] ∧
    trial_handler (trial_handler dbTrial 0 2 42).1 5 2 42
      = ((trial_handler dbTrial 0 2 42).1,
         [.answerAlert "Вы уже использовали пробный период."]) := by
  have h := C5_trial_exactly_once dbTrial 0 5 2 42 ⟨1, 42, "", "", "", false⟩
    (by decide) rfl
  exact ⟨h.1, h.2.2.2.2⟩

/-! The reminder pass. -/

/-- An instant whose calendar day is the day of now + 1 day lies strictly
in the future of now. -/
theorem date_boundary_future (now e : Int) (h : dateOf e = dateOf (now + 86400)) :
    now < e := by
  unfold dateOf at h
  have h1 : 86400 * Int.ediv e 86400 + Int.emod e 86400 = e :=
    Int.ediv_add_emod e 86400
  have h3 : 0 ≤ Int.emod e 86400 := Int.emod_nonneg e (by norm_num)
  have h2 : 86400 * Int.ediv now 86400 + Int.emod now 86400 = now :=
    Int.ediv_add_emod now 86400
  have h4 : Int.emod now 86400 < 86400 := Int.emod_lt_of_pos now (by norm_num)
  have h5 : 0 ≤ Int.emod now 86400 := Int.emod_nonneg now (by norm_num)
  have h6 : Int.ediv (now + 86400) 86400 = Int.ediv now 86400 + 1 := by
    have := @Int.add_mul_ediv_right now 1 86400 (by norm_num)
    simpa using this
  rw [h6] at h
  omega

/-- Every telegram id produced by the reminder query comes from an active
subscription row of that user whose expiry date is the calendar day of
now + 1 day — hence a row that is still unexpired at now. -/
theorem reminderRows_spec (db : DB) (now : Int) (tg : Int)
    (h : tg ∈ reminderRows db now) :
    ∃ s ∈ db.subs, ∃ u ∈ db.users, u.id = s.user_id ∧ u.telegram_id = tg ∧
      s.status = "active" ∧ dateOf s.expires_at = dateOf (now + 86400) ∧
      now < s.expires_at := by
  unfold reminderRows at h
  rw [List.mem_flatMap] at h
  obtain ⟨s, hs, hmem⟩ := h
  by_cases hc : (s.status == "active" &&
      (dateOf s.expires_at == dateOf (now + 86400))) = true
  · rw [if_pos hc] at hmem
    rw [List.mem_filterMap] at hmem
    obtain ⟨u, hu, heq⟩ := hmem
    by_cases hid : (u.id == s.user_id) = true
    · rw [if_pos hid] at heq
      injection heq with heq
      rw [Bool.and_eq_true] at hc
      have hst : s.status = "active" := by
        have := hc.1; simpa using this
      have hdt : dateOf s.expires_at = dateOf (now + 86400) := by
        have := hc.2; simpa using this
      exact ⟨s, hs, u, hu, by simpa using hid, heq, hst, hdt,
        date_boundary_future now s.expires_at hdt⟩
    · rw [if_neg hid] at heq
      exact absurd heq (by simp)
  · rw [if_neg hc] at hmem
    exact absurd hmem (by simp)

/-! Machinery for the sweep: how the expiry loop transforms the
subscription table. -/

theorem subStepMono_refl (s : SubRow) : subStepMono s s :=
  ⟨rfl, rfl, rfl, Or.inl rfl⟩

theorem subStepMono_trans {a b c : SubRow} (h1 : subStepMono a b)
    (h2 : subStepMono b c) : subStepMono a c := by
  obtain ⟨i1, u1, e1, s1⟩ := h1
  obtain ⟨i2, u2, e2, s2⟩ := h2
  refine ⟨i2.trans i1, u2.trans u1, e2.trans e1, ?_⟩
  rcases s1 with s1 | ⟨sa, sb⟩
  · rcases s2 with s2 | ⟨sa2, sb2⟩
    · exact Or.inl (s2.trans s1)
    · exact Or.inr ⟨s1 ▸ sa2, sb2⟩
  · rcases s2 with s2 | ⟨sa2, sb2⟩
    · exact Or.inr ⟨sa, s2.trans sb⟩
    · rw [sb] at sa2
      exact absurd sa2 (by simp)

theorem forall2_mono_refl (l : List SubRow) : List.Forall₂ subStepMono l l := by
  induction l with
  | nil => exact List.Forall₂.nil
  | cons a t ih => exact List.Forall₂.cons (subStepMono_refl a) ih

theorem forall2_mono_trans : ∀ {l1 l2 l3 : List SubRow},
    List.Forall₂ subStepMono l1 l2 → List.Forall₂ subStepMono l2 l3 →
    List.Forall₂ subStepMono l1 l3 := by
  intro l1 l2 l3 h1 h2
  induction h1 generalizing l3 with
  | nil => cases h2; exact List.Forall₂.nil
  | cons hab hres ih =>
    cases h2 with
    | cons hbc hres2 =>
      exact List.Forall₂.cons (subStepMono_trans hab hbc) (ih hres2)

theorem forall2_map_self (l : List SubRow) (f : SubRow → SubRow)
    (hf : ∀ a ∈ l, subStepMono a (f a)) :
    List.Forall₂ subStepMono l (l.map f) := by
  induction l with
  | nil => exact List.Forall₂.nil
  | cons a t ih =>
    exact List.Forall₂.cons (hf a (by simp))
      (ih (fun b hb => hf b (by simp [hb])))

theorem forall2_mem_right {α β : Type} {R : α → β → Prop} :
    ∀ {l : List α} {l' : List β}, List.Forall₂ R l l' →
    ∀ b ∈ l', ∃ a ∈ l, R a b := by
  intro l l' h
  induction h with
  | nil => intro b hb; exact absurd hb (by simp)
  | cons hab hres ih =>
    intro b hb
    rcases List.mem_cons.mp hb with hb | hb
    · exact ⟨_, by simp, hb ▸ hab⟩
    · obtain ⟨a, ha, har⟩ := ih b hb
      exact ⟨a, by simp [ha], har⟩

theorem markUserExpired_users (db : DB) (tg : Int) :
    (markUserExpired db tg).users = db.users := by
  unfold markUserExpired
  cases db.users.find? (fun u => u.telegram_id == tg) <;> rfl

theorem markUserExpired_statusDom (db : DB) (tg : Int) (h : statusDom db) :
    statusDom (markUserExpired db tg) := by
  unfold markUserExpired
  cases db.users.find? (fun u => u.telegram_id == tg) with
  | none => exact h
  | some u =>
    intro s hs
    rw [List.mem_map] at hs
    obtain ⟨a, ha, hfa⟩ := hs
    by_cases hid : (a.user_id == u.id) = true
    · rw [if_pos hid] at hfa
      exact Or.inr (by rw [← hfa])
    · rw [if_neg hid] at hfa
      exact hfa ▸ h a ha

theorem markUserExpired_forall2 (db : DB) (tg : Int) (h : statusDom db) :
    List.Forall₂ subStepMono db.subs (markUserExpired db tg).subs := by
  unfold markUserExpired
  cases db.users.find? (fun u => u.telegram_id == tg) with
  | none => exact forall2_mono_refl db.subs
  | some u =>
    refine forall2_map_self db.subs _ (fun a ha => ?_)
    by_cases hid : (a.user_id == u.id) = true
    · rw [if_pos hid]
      rcases h a ha with hst | hst
      · exact ⟨rfl, rfl, rfl, Or.inr ⟨hst, rfl⟩⟩
      · exact ⟨rfl, rfl, rfl, Or.inl (by rw [hst])⟩
    · rw [if_neg hid]
      exact subStepMono_refl a

/-- One expiry-loop iteration either keeps the database or applies the
per-user expiry UPDATE. -/
theorem step1Body_cases (now : Int) (acc : Step1Acc) (row : Int × Int) :
    (step1Body now acc row).db = acc.db ∨
    (step1Body now acc row).db = markUserExpired acc.db row.1 := by
  unfold step1Body
  by_cases hlt : row.2 < now
  · rw [if_pos hlt]
    dsimp only
    by_cases hact : has_active_subscription_by_telegram
        (markUserExpired acc.db row.1) now row.1 = true
    · rw [if_pos hact]
      exact Or.inr rfl
    · rw [if_neg hact]
      exact Or.inr rfl
  · rw [if_neg hlt]
    exact Or.inl rfl

theorem step1Body_users (now : Int) (acc : Step1Acc) (row : Int × Int) :
    (step1Body now acc row).db.users = acc.db.users := by
  rcases step1Body_cases now acc row with h | h
  · rw [h]
  · rw [h, markUserExpired_users]

theorem step1Body_statusDom (now : Int) (acc : Step1Acc) (row : Int × Int)
    (h : statusDom acc.db) : statusDom (step1Body now acc row).db := by
  rcases step1Body_cases now acc row with he | he
  · rw [he]; exact h
  · rw [he]; exact markUserExpired_statusDom _ _ h

theorem step1Body_forall2 (now : Int) (acc : Step1Acc) (row : Int × Int)
    (h : statusDom acc.db) :
    List.Forall₂ subStepMono acc.db.subs (step1Body now acc row).db.subs := by
  rcases step1Body_cases now acc row with he | he
  · rw [he]; exact forall2_mono_refl _
  · rw [he]; exact markUserExpired_forall2 _ _ h

theorem foldl_step1_users (now : Int) :
    ∀ (l : List (Int × Int)) (acc : Step1Acc),
    (l.foldl (step1Body now) acc).db.users = acc.db.users := by
  intro l
  induction l with
  | nil => intro acc; rfl
  | cons p t ih =>
    intro acc
    rw [List.foldl_cons, ih, step1Body_users]

theorem foldl_step1_statusDom (now : Int) :
    ∀ (l : List (Int × Int)) (acc : Step1Acc), statusDom acc.db →
    statusDom (l.foldl (step1Body now) acc).db := by
  intro l
  induction l with
  | nil => intro acc h; exact h
  | cons p t ih =>
    intro acc h
    rw [List.foldl_cons]
    exact ih _ (step1Body_statusDom now acc p h)

theorem foldl_step1_forall2 (now : Int) :
    ∀ (l : List (Int × Int)) (acc : Step1Acc), statusDom acc.db →
    List.Forall₂ subStepMono acc.db.subs
      (l.foldl (step1Body now) acc).db.subs := by
  intro l
  induction l with
  | nil => intro acc h; exact forall2_mono_refl _
  | cons p t ih =>
    intro acc h
    rw [List.foldl_cons]
    exact forall2_mono_trans (step1Body_forall2 now acc p h)
      (ih _ (step1Body_statusDom now acc p h))

theorem markUserExpired_preserves_expired (db : DB) (tg : Int) (uid : Nat)
    (h : UserExpired db uid) : UserExpired (markUserExpired db tg) uid := by
  unfold markUserExpired
  cases db.users.find? (fun u => u.telegram_id == tg) with
  | none => exact h
  | some u =>
    intro s hs hsu
    rw [List.mem_map] at hs
    obtain ⟨a, ha, hfa⟩ := hs
    by_cases hid : (a.user_id == u.id) = true
    · rw [if_pos hid] at hfa
      rw [← hfa]
    · rw [if_neg hid] at hfa
      subst hfa
      exact h a ha hsu

theorem step1Body_preserves_expired (now : Int) (acc : Step1Acc)
    (row : Int × Int) (uid : Nat) (h : UserExpired acc.db uid) :
    UserExpired (step1Body now acc row).db uid := by
  rcases step1Body_cases now acc row with he | he
  · rw [he]; exact h
  · rw [he]; exact markUserExpired_preserves_expired _ _ _ h

theorem foldl_step1_preserves_expired (now : Int) :
    ∀ (l : List (Int × Int)) (acc : Step1Acc) (uid : Nat),
    UserExpired acc.db uid →
    UserExpired (l.foldl (step1Body now) acc).db uid := by
  intro l
  induction l with
  | nil => intro acc uid h; exact h
  | cons p t ih =>
    intro acc uid h
    rw [List.foldl_cons]
    exact ih _ _ (step1Body_preserves_expired now acc p uid h)

/-- When the expiry UPDATE finds its user, it expires every row of that
user. -/
theorem markUserExpired_sets (db : DB) (tg : Int) (u : UserRow)
    (hf : db.users.find? (fun x => x.telegram_id == tg) = some u) :
    UserExpired (markUserExpired db tg) u.id := by
  unfold markUserExpired
  rw [hf]
  intro s hs hsu
  rw [List.mem_map] at hs
  obtain ⟨a, ha, hfa⟩ := hs
  by_cases hid : (a.user_id == u.id) = true
  · rw [if_pos hid] at hfa
    rw [← hfa]
  · rw [if_neg hid] at hfa
    rw [← hfa] at hsu
    exact absurd (by simpa using hsu) (by simpa using hid)

/-- If a past-expiry snapshot row for telegram id tg is processed anywhere
in the expiry loop, every subscription row of tg's user is expired in the
loop's final database. -/
theorem foldl_step1_marks (now : Int) (U : List UserRow) (tg e : Int)
    (u : UserRow) (hfind : U.find? (fun x => x.telegram_id == tg) = some u)
    (hlt : e < now) :
    ∀ (l : List (Int × Int)) (acc : Step1Acc), acc.db.users = U →
    (tg, e) ∈ l →
    UserExpired ((l.foldl (step1Body now) acc)).db u.id := by
  intro l
  induction l with
  | nil => intro acc hU hmem; exact absurd hmem (by simp)
  | cons p t ih =>
    intro acc hU hmem
    rw [List.foldl_cons]
    rcases List.mem_cons.mp hmem with hp | hp
    · have hdb : (step1Body now acc p).db = markUserExpired acc.db tg := by
        rw [← hp]
        unfold step1Body
        dsimp only
        rw [if_pos hlt]
        by_cases hact : has_active_subscription_by_telegram
            (markUserExpired acc.db tg) now tg = true
        · rw [if_pos hact]
        · rw [if_neg hact]
      have hexp : UserExpired (step1Body now acc p).db u.id := by
        rw [hdb]
        exact markUserExpired_sets acc.db tg u (by rw [hU]; exact hfind)
      exact foldl_step1_preserves_expired now t _ u.id hexp
    · exact ih _ (by rw [step1Body_users, hU]) hp

theorem get_active_subscribers_elim (db : DB) (p : Int × Int)
    (h : p ∈ get_active_subscribers db) :
    ∃ s ∈ db.subs, ∃ u ∈ db.users, s.status = "active" ∧ u.id = s.user_id ∧
      p = (u.telegram_id, s.expires_at) := by
  unfold get_active_subscribers at h
  rw [List.mem_flatMap] at h
  obtain ⟨s, hs, hmem⟩ := h
  by_cases hst : (s.status == "active") = true
  · rw [if_pos hst] at hmem
    rw [List.mem_filterMap] at hmem
    obtain ⟨u, hu, heq⟩ := hmem
    by_cases hid : (u.id == s.user_id) = true
    · rw [if_pos hid] at heq
      injection heq with heq
      exact ⟨s, hs, u, hu, by simpa using hst, by simpa using hid, heq.symm⟩
    · rw [if_neg hid] at heq
      exact absurd heq (by simp)
  · rw [if_neg hst] at hmem
    exact absurd hmem (by simp)

theorem get_active_subscribers_intro (db : DB) (s : SubRow) (u : UserRow)
    (hs : s ∈ db.subs) (hu : u ∈ db.users) (hst : s.status = "active")
    (hid : u.id = s.user_id) :
    (u.telegram_id, s.expires_at) ∈ get_active_subscribers db := by
  unfold get_active_subscribers
  rw [List.mem_flatMap]
  refine ⟨s, hs, ?_⟩
  rw [if_pos (by simp [hst])]
  rw [List.mem_filterMap]
  exact ⟨u, hu, by rw [if_pos (by simp [hid])]⟩

/-- With UNIQUE telegram ids, looking a member up by its own telegram id
finds exactly that member. -/
theorem find_by_tg_nodup : ∀ (l : List UserRow),
    (l.map (fun x => x.telegram_id)).Nodup → ∀ u ∈ l,
    l.find? (fun x => x.telegram_id == u.telegram_id) = some u := by
  intro l
  induction l with
  | nil => intro _ u hu; exact absurd hu (by simp)
  | cons a t ih =>
    intro hnd u hu
    rw [List.map_cons, List.nodup_cons] at hnd
    rcases List.mem_cons.mp hu with hu | hu
    · subst hu
      exact List.find?_cons_of_pos _ (by simp)
    · by_cases hab : (a.telegram_id == u.telegram_id) = true
      · exfalso
        apply hnd.1
        rw [show a.telegram_id = u.telegram_id from by simpa using hab]
        exact List.mem_map_of_mem _ hu
      · have hstep : List.find? (fun x => x.telegram_id == u.telegram_id)
            (a :: t) = List.find? (fun x => x.telegram_id == u.telegram_id) t :=
          List.find?_cons_of_neg t
            (show ¬ ((fun x : UserRow => x.telegram_id == u.telegram_id) a
              = true) from hab)
        rw [hstep]
        exact ih hnd.2 u hu

/-- After one full expiry loop over a well-formed database, the snapshot
query finds no active row that is already past expiry. -/
theorem sweep1_no_stale (db : DB) (now : Int) (hwf : WF db) :
    ∀ p ∈ get_active_subscribers
      ((get_active_subscribers db).foldl (step1Body now) ⟨db, [], []⟩).db,
      ¬ p.2 < now := by
  intro p hp hlt
  obtain ⟨hndId, hndTg, hdom⟩ := hwf
  obtain ⟨s', hs', u, hu, hst', hid', hpe⟩ :=
    get_active_subscribers_elim _ p hp
  have husers : ((get_active_subscribers db).foldl (step1Body now)
      ⟨db, [], []⟩).db.users = db.users := foldl_step1_users now _ _
  have hf2 : List.Forall₂ subStepMono db.subs
      ((get_active_subscribers db).foldl (step1Body now) ⟨db, [], []⟩).db.subs :=
    foldl_step1_forall2 now (get_active_subscribers db) ⟨db, [], []⟩ hdom
  obtain ⟨s, hs, hmono⟩ := forall2_mem_right hf2 s' hs'
  obtain ⟨hide, huid, hexp, hstat⟩ := hmono
  have hsact : s.status = "active" := by
    rcases hstat with hstat | ⟨h1, h2⟩
    · rw [← hstat]; exact hst'
    · exact h1
  have hu' : u ∈ db.users := husers ▸ hu
  have hmem0 : (u.telegram_id, s.expires_at) ∈ get_active_subscribers db :=
    get_active_subscribers_intro db s u hs hu' hsact (by rw [hid', huid])
  have hfind : db.users.find? (fun x => x.telegram_id == u.telegram_id)
      = some u := find_by_tg_nodup db.users hndTg u hu'
  have hlt' : s.expires_at < now := by
    rw [hpe] at hlt
    dsimp only at hlt
    rw [← hexp]
    exact hlt
  have hexp1 : UserExpired ((get_active_subscribers db).foldl (step1Body now)
      ⟨db, [], []⟩).db u.id :=
    foldl_step1_marks now db.users u.telegram_id s.expires_at u hfind hlt'
      (get_active_subscribers db) ⟨db, [], []⟩ rfl hmem0
  have hcontra : s'.status = "expired" := hexp1 s' hs' hid'.symm
  rw [hst'] at hcontra
  exact absurd hcontra (by simp)

theorem foldl_step1_noop (now : Int) :
    ∀ (l : List (Int × Int)) (acc : Step1Acc),
    (∀ p ∈ l, ¬ p.2 < now) → l.foldl (step1Body now) acc = acc := by
  intro l
  induction l with
  | nil => intro acc _; rfl
  | cons p t ih =>
    intro acc h
    rw [List.foldl_cons]
    have hstep : step1Body now acc p = acc := by
      unfold step1Body
      rw [if_neg (h p (by simp))]
    rw [hstep]
    exact ih acc (fun q hq => h q (by simp [hq]))

theorem check_subscriptions_noop_fold (db : DB) (now : Int)
    (hfold : (get_active_subscribers db).foldl (step1Body now) ⟨db, [], []⟩
      = ⟨db, [], []⟩) :
    check_subscriptions db now
      = ⟨db, [], [], recoveryList db now, recoveryList db now,
         reminderRows db now⟩ := by
  unfold check_subscriptions
  rw [hfold]

/-- C3 amended: sweep idempotence holds for the ledger state but not for
the effects.  For a well-formed database, running check_subscriptions a
second time at the same instant with no intervening events leaves the
database unchanged and performs no expiry-loop revoke or notification,
but it repeats exactly the recovery-pass revokes and notifications and the
reminders of the first run (the recovery pass re-revokes and re-notifies
every user owning an expired row and no valid row, on every run). -/
theorem C3_sweep_idempotent_amended (db : DB) (now : Int) (hwf : WF db) :
    (check_subscriptions (check_subscriptions db now).db now).db
      = (check_subscriptions db now).db ∧
    (check_subscriptions (check_subscriptions db now).db now).expiredRevokes
      = [] ∧
    (check_subscriptions (check_subscriptions db now).db now).expiredMsgs
      = [] ∧
    (check_subscriptions (check_subscriptions db now).db now).recoveryRevokes
      = (check_subscriptions db now).recoveryRevokes ∧
    (check_subscriptions (check_subscriptions db now).db now).recoveryMsgs
      = (check_subscriptions db now).recoveryMsgs ∧
    (check_subscriptions (check_subscriptions db now).db now).reminders
      = (check_subscriptions db now).reminders := by
  have hno : ∀ p ∈ get_active_subscribers (check_subscriptions db now).db,
      ¬ p.2 < now := sweep1_no_stale db now hwf
  have hfold : (get_active_subscribers (check_subscriptions db now).db).foldl
      (step1Body now) ⟨(check_subscriptions db now).db, [], []⟩
      = ⟨(check_subscriptions db now).db, [], []⟩ :=
    foldl_step1_noop now _ _ hno
  have hD : check_subscriptions (check_subscriptions db now).db now
      = ⟨(check_subscriptions db now).db, [], [],
         recoveryList (check_subscriptions db now).db now,
         recoveryList (check_subscriptions db now).db now,
         reminderRows (check_subscriptions db now).db now⟩ :=
    check_subscriptions_noop_fold _ now hfold
  have hrec1 : (check_subscriptions db now).recoveryRevokes
      = recoveryList (check_subscriptions db now).db now := rfl
  have hrem1 : (check_subscriptions db now).reminders
      = reminderRows (check_subscriptions db now).db now := rfl
  rw [hD]
  exact ⟨rfl, rfl, rfl, hrec1.symm, hrec1.symm, hrem1.symm⟩

/-- C3 amended witness: at dbRace the second sweep leaves the ledger
unchanged, performs no expiry-loop work, and repeats the recovery pass of
the first run. -/
theorem C3_sweep_idempotent_amended_witness :
    (check_subscriptions (check_subscriptions dbRace 100).db 100).db
      = (check_subscriptions dbRace 100).db ∧
    (check_subscriptions (check_subscriptions dbRace 100).db 100).expiredRevokes
      = [] ∧
    (check_subscriptions (check_subscriptions dbRace 100).db 100).expiredMsgs
      = [] ∧
    (check_subscriptions (check_subscriptions dbRace 100).db 100).recoveryRevokes
      = (check_subscriptions dbRace 100).recoveryRevokes ∧
    (check_subscriptions (check_subscriptions dbRace 100).db 100).recoveryMsgs
      = (check_subscriptions dbRace 100).recoveryMsgs ∧
    (check_subscriptions (check_subscriptions dbRace 100).db 100).reminders
      = (check_subscriptions dbRace 100).reminders :=
  C3_sweep_idempotent_amended dbRace 100
    (by unfold WF statusDom; exact ⟨by decide, by decide, by decide⟩)

/-! Status monotonicity across all ledger operations. -/

theorem create_or_get_user_subs (db : DB) (tg : Int) (a b c : String) :
    (create_or_get_user db tg a b c).1.subs = db.subs := by
  unfold create_or_get_user
  split <;> rfl

theorem trial_handler_subs (db : DB) (now trialDays tg : Int) :
    (trial_handler db now trialDays tg).1.subs = db.subs ∨
    ∃ r : SubRow, r.status = "active" ∧
      (trial_handler db now trialDays tg).1.subs = db.subs ++ [r] := by
  unfold trial_handler
  cases get_user_by_telegram db tg with
  | none => exact Or.inl rfl
  | some u =>
    dsimp only
    by_cases ht : u.trial_used = true
    · rw [if_pos ht]
      exact Or.inl rfl
    · rw [if_neg ht]
      exact Or.inr
        ⟨⟨db.nextSubId, u.id, now + trialDays * 86400, "active"⟩, rfl, rfl⟩

theorem activate_subscription_subs (db : DB) (now tg days : Int) :
    (activate_subscription db now tg days).subs = db.subs ∨
    ∃ r : SubRow, r.status = "active" ∧
      (activate_subscription db now tg days).subs = db.subs ++ [r] := by
  unfold activate_subscription
  cases get_user_by_telegram db tg with
  | none => exact Or.inl rfl
  | some u =>
    exact Or.inr ⟨⟨db.nextSubId, u.id, now + days * 86400, "active"⟩, rfl, rfl⟩

theorem successful_payment_handler_subs (pi : String → Option Int) (db : DB)
    (now : Int) (pl : String) (ta : Int) (cid : String) :
    (successful_payment_handler pi db now pl ta cid).db.subs = db.subs ∨
    ∃ r : SubRow, r.status = "active" ∧
      (successful_payment_handler pi db now pl ta cid).db.subs
        = db.subs ++ [r] := by
  unfold successful_payment_handler
  by_cases hl : (pySplit pl).length < 4
  · rw [if_pos hl]
    exact Or.inl rfl
  · rw [if_neg hl]
    cases hp : pi ((pySplit pl).getD 1 "") with
    | none => exact Or.inl rfl
    | some user_id =>
      cases hq : pi ((pySplit pl).getD 2 "") with
      | none => exact Or.inl rfl
      | some months =>
        dsimp only
        by_cases hd : (db.payments.any
            (fun p => p.telegram_payment_charge_id == cid)) = true
        · rw [if_pos hd]
          exact Or.inl rfl
        · rw [if_neg hd]
          rcases activate_subscription_subs
              { db with
                payments := db.payments ++
                  [⟨db.nextPayId, cid, user_id, ta / 100, months, "paid"⟩],
                nextPayId := db.nextPayId + 1 } now user_id (months * 30)
            with h | ⟨r, hr, h⟩
          · exact Or.inl h
          · exact Or.inr ⟨r, hr, h⟩

theorem admin_extend_days_subs (db : DB) (now tg days : Int) :
    (admin_extend_days db now tg days).subs = db.subs ∨
    ∃ r : SubRow, r.status = "active" ∧
      (admin_extend_days db now tg days).subs = db.subs ++ [r] := by
  unfold admin_extend_days
  cases get_user_by_telegram db tg with
  | none => exact Or.inl rfl
  | some u =>
    exact Or.inr ⟨⟨db.nextSubId, u.id, now + days * 86400, "active"⟩, rfl, rfl⟩

/-- C8: status monotonicity.  For every ledger operation of the bot (start,
trial, payment, admin extension, sweep) applied to a database whose
statuses are in domain: each pre-existing subscription row keeps its id,
owner and expiry, and its status is either unchanged or moves
active → expired (never the reverse); every newly appended row starts
active; and the status domain is preserved. -/
theorem C8_status_monotonicity (pi : String → Option Int)
    (trialDays now : Int) (db : DB) (e : Event) (hdom : statusDom db) :
    List.Forall₂ subStepMono db.subs
      ((applyEvent pi trialDays now db e).subs.take db.subs.length) ∧
    (∀ r ∈ (applyEvent pi trialDays now db e).subs.drop db.subs.length,
      r.status = "active") ∧
    statusDom (applyEvent pi trialDays now db e) := by
  have hshape : (applyEvent pi trialDays now db e).subs = db.subs ∨
      (∃ r : SubRow, r.status = "active" ∧
        (applyEvent pi trialDays now db e).subs = db.subs ++ [r]) ∨
      ((applyEvent pi trialDays now db e).subs
        = ((get_active_subscribers db).foldl (step1Body now)
            ⟨db, [], []⟩).db.subs) := by
    cases e with
    | startEvt tg a b c => exact Or.inl (create_or_get_user_subs db tg a b c)
    | trialEvt tg =>
      rcases trial_handler_subs db now trialDays tg with h | ⟨r, hr, h⟩
      · exact Or.inl h
      · exact Or.inr (Or.inl ⟨r, hr, h⟩)
    | payEvt pl ta cid =>
      rcases successful_payment_handler_subs pi db now pl ta cid
        with h | ⟨r, hr, h⟩
      · exact Or.inl h
      · exact Or.inr (Or.inl ⟨r, hr, h⟩)
    | adminExtendEvt tg d =>
      rcases admin_extend_days_subs db now tg d with h | ⟨r, hr, h⟩
      · exact Or.inl h
      · exact Or.inr (Or.inl ⟨r, hr, h⟩)
    | sweepEvt => exact Or.inr (Or.inr rfl)
  rcases hshape with h | ⟨r, hr, h⟩ | h
  · refine ⟨?_, ?_, ?_⟩
    · rw [h, List.take_length]
      exact forall2_mono_refl _
    · rw [h, List.drop_length]
      intro r hr
      exact absurd hr (by simp)
    · intro s hs
      rw [h] at hs
      exact hdom s hs
  · refine ⟨?_, ?_, ?_⟩
    · rw [h, List.take_left]
      exact forall2_mono_refl _
    · rw [h, List.drop_left]
      intro r' hr'
      rcases List.mem_cons.mp hr' with hr' | hr'
      · rw [hr']; exact hr
      · exact absurd hr' (by simp)
    · intro s hs
      rw [h] at hs
      rcases List.mem_append.mp hs with hs | hs
      · exact hdom s hs
      · rcases List.mem_cons.mp hs with hs | hs
        · exact Or.inl (by rw [hs]; exact hr)
        · exact absurd hs (by simp)
  · have hf2 : List.Forall₂ subStepMono db.subs
        ((get_active_subscribers db).foldl (step1Body now)
          ⟨db, [], []⟩).db.subs :=
      foldl_step1_forall2 now (get_active_subscribers db) ⟨db, [], []⟩ hdom
    have hlen : db.subs.length
        = ((get_active_subscribers db).foldl (step1Body now)
            ⟨db, [], []⟩).db.subs.length := hf2.length_eq
    have hdom' : statusDom ((get_active_subscribers db).foldl (step1Body now)
        ⟨db, [], []⟩).db :=
      foldl_step1_statusDom now (get_active_subscribers db) ⟨db, [], []⟩ hdom
    refine ⟨?_, ?_, ?_⟩
    · rw [h, hlen, List.take_length]
      exact hf2
    · rw [h, hlen, List.drop_length]
      intro r hr
      exact absurd hr (by simp)
    · intro s hs
      rw [h] at hs
      exact hdom' s hs

/-- C8 witness: the sweep at dbRace only moves statuses active → expired
and appends nothing. -/
theorem C8_status_monotonicity_witness :
    List.Forall₂ subStepMono dbRace.subs
      ((applyEvent pyInt 2 100 dbRace Event.sweepEvt).subs.take
        dbRace.subs.length) ∧
    (∀ r ∈ (applyEvent pyInt 2 100 dbRace Event.sweepEvt).subs.drop
        dbRace.subs.length, r.status = "active") ∧
    statusDom (applyEvent pyInt 2 100 dbRace Event.sweepEvt) :=
  C8_status_monotonicity pyInt 2 100 dbRace Event.sweepEvt
    (by unfold statusDom; decide)

/-! The reminder pass, characterized exactly: the reminder list equals the
join of the boundary-day active rows with their owners, one entry per
row. -/

theorem flatMap_ite_nil {α β : Type} (p : α → Bool) (g : α → List β) :
    ∀ l : List α,
    (l.flatMap (fun a => if p a then g a else [])) = (l.filter p).flatMap g := by
  intro l
  induction l with
  | nil => rfl
  | cons a t ih =>
    rw [List.flatMap_cons, List.filter_cons]
    by_cases hp : p a = true
    · rw [if_pos hp, if_pos hp, List.flatMap_cons, ih]
    · rw [if_neg hp, if_neg hp, ih, List.nil_append]

theorem flatMap_toList {α β : Type} (f : α → Option β) :
    ∀ l : List α, l.flatMap (fun a => (f a).toList) = l.filterMap f := by
  intro l
  induction l with
  | nil => rfl
  | cons a t ih =>
    rw [List.flatMap_cons]
    cases hf : f a with
    | none => rw [List.filterMap_cons_none hf, ← ih]; rfl
    | some b => rw [List.filterMap_cons_some hf, ← ih]; rfl

/-- With UNIQUE user ids, the inner join loop of the reminder query keeps
exactly the telegram id of the row's owner (or nothing for an orphan
row). -/
theorem filterMap_users_unique :
    ∀ (l : List UserRow), (l.map (fun u => u.id)).Nodup → ∀ uid : Nat,
    l.filterMap (fun u => if u.id == uid then some u.telegram_id else none)
      = ((l.find? (fun u => u.id == uid)).map (fun u => u.telegram_id)).toList := by
  intro l
  induction l with
  | nil => intro _ uid; rfl
  | cons a t ih =>
    intro hnd uid
    rw [List.map_cons, List.nodup_cons] at hnd
    by_cases ha : (a.id == uid) = true
    · have hfa : (if a.id == uid then some a.telegram_id else none)
          = some a.telegram_id := if_pos ha
      have hcons : List.filterMap
          (fun u : UserRow => if u.id == uid then some u.telegram_id else none)
          (a :: t)
          = a.telegram_id :: List.filterMap
            (fun u : UserRow => if u.id == uid then some u.telegram_id else none)
            t := List.filterMap_cons_some hfa
      rw [hcons]
      have htail : t.filterMap
          (fun u => if u.id == uid then some u.telegram_id else none) = [] := by
        rw [List.filterMap_eq_nil_iff]
        intro u hu
        have hne : ¬ (u.id == uid) = true := by
          intro hc
          apply hnd.1
          have hua : u.id = a.id := by
            have h1 : u.id = uid := by simpa using hc
            have h2 : a.id = uid := by simpa using ha
            rw [h1, h2]
          rw [← hua]
          exact List.mem_map_of_mem _ hu
        rw [if_neg hne]
      rw [htail]
      have hfind : List.find? (fun u : UserRow => u.id == uid) (a :: t)
          = some a := List.find?_cons_of_pos t ha
      rw [hfind]
      rfl
    · have hfa : (if a.id == uid then some a.telegram_id else none)
          = none := if_neg ha
      have hcons : List.filterMap
          (fun u : UserRow => if u.id == uid then some u.telegram_id else none)
          (a :: t)
          = List.filterMap
            (fun u : UserRow => if u.id == uid then some u.telegram_id else none)
            t := List.filterMap_cons_none hfa
      rw [hcons]
      have hstep : List.find? (fun u : UserRow => u.id == uid) (a :: t)
          = List.find? (fun u : UserRow => u.id == uid) t :=
        List.find?_cons_of_neg t
          (show ¬ ((fun u : UserRow => u.id == uid) a = true) from ha)
      rw [hstep]
      exact ih hnd.2 uid

/-- Under UNIQUE user ids, the reminder query returns exactly one telegram
id per subscription row that is active, owned, and expires on the calendar
day of now + 1 day — in table order. -/
theorem reminderRows_eq (db : DB) (now : Int)
    (hnd : (db.users.map (fun u => u.id)).Nodup) :
    reminderRows db now
      = (db.subs.filter (fun s => s.status == "active" &&
          (dateOf s.expires_at == dateOf (now + 86400)))).filterMap
          (fun s => (db.users.find? (fun u => u.id == s.user_id)).map
            (fun u => u.telegram_id)) := by
  unfold reminderRows
  rw [flatMap_ite_nil]
  have hpt : ∀ s : SubRow,
      db.users.filterMap
        (fun u => if u.id == s.user_id then some u.telegram_id else none)
      = ((db.users.find? (fun u => u.id == s.user_id)).map
          (fun u => u.telegram_id)).toList :=
    fun s => filterMap_users_unique db.users hnd s.user_id
  simp only [hpt]
  rw [flatMap_toList]

/-- C7 amended: both sweep cadences send reminders — main schedules the
same check_subscriptions on the daily cron trigger and on the 6-hour
interval trigger, so the interval job's behaviour is identical to the
daily job's.  The reminder query runs against the ledger state the sweep's
expiry and recovery steps leave behind; relative to that state, and with
UNIQUE user ids, it sends exactly one reminder per subscription row that
has status active, an owner row, and expires_at on the calendar day of
now + 1 day, in table order (the second conjunct is that exact list
equality); every reminded row is necessarily still unexpired at now
(third conjunct). -/
theorem C7_reminder_pass_amended (db : DB) (now : Int)
    (hnd : (db.users.map (fun u => u.id)).Nodup) :
    interval_job db now = daily_job db now ∧
    (interval_job db now).reminders
      = ((interval_job db now).db.subs.filter
          (fun s => s.status == "active" &&
            (dateOf s.expires_at == dateOf (now + 86400)))).filterMap
          (fun s => ((interval_job db now).db.users.find?
              (fun u => u.id == s.user_id)).map (fun u => u.telegram_id)) ∧
    ∀ tg ∈ (interval_job db now).reminders,
      ∃ s ∈ (interval_job db now).db.subs,
        ∃ u ∈ (interval_job db now).db.users,
          u.id = s.user_id ∧ u.telegram_id = tg ∧ s.status = "active" ∧
          dateOf s.expires_at = dateOf (now + 86400) ∧ now < s.expires_at := by
  refine ⟨rfl, ?_, ?_⟩
  · have husers : (interval_job db now).db.users = db.users :=
      foldl_step1_users now (get_active_subscribers db) ⟨db, [], []⟩
    have hnd' : ((interval_job db now).db.users.map (fun u => u.id)).Nodup := by
      rw [husers]
      exact hnd
    exact reminderRows_eq ((interval_job db now).db) now hnd'
  · intro tg htg
    exact reminderRows_spec ((interval_job db now).db) now tg htg

/-- C7 amended witness: at dbRem the interval job's reminder list equals
exactly the one-per-row join of its boundary-day active rows, and user 7's
qualifying row is exhibited. -/
theorem C7_reminder_pass_amended_witness :
    (interval_job dbRem 100).reminders
      = ((interval_job dbRem 100).db.subs.filter
          (fun s => s.status == "active" &&
            (dateOf s.expires_at == dateOf (100 + 86400)))).filterMap
          (fun s => ((interval_job dbRem 100).db.users.find?
              (fun u => u.id == s.user_id)).map (fun u => u.telegram_id)) ∧
    ∃ s ∈ (interval_job dbRem 100).db.subs,
      ∃ u ∈ (interval_job dbRem 100).db.users,
        u.id = s.user_id ∧ u.telegram_id = 7 ∧ s.status = "active" ∧
        dateOf s.expires_at = dateOf (100 + 86400) ∧ (100 : Int) < s.expires_at :=
  ⟨(C7_reminder_pass_amended dbRem 100 (by decide)).2.1,
   (C7_reminder_pass_amended dbRem 100 (by decide)).2.2 7 (by decide)⟩
